import Mathlib

/-!
# A shallow embedding of the zot filesystem-backed image store

The repository's storage engine (`pkg/storage`, type `ImageStoreFS`) is a
content-addressed blob and manifest store laid out as an OCI Image Layout on
disk.  The sources available here contain the engine's test suite
(`pkg/storage/storage_fs_test.go`) and its collaborators, but not the engine
body itself, so every operation below is modelled from the specification
(`spec.md`), with the behaviour pinned down, where the spec leaves slack, by
what the test suite asserts.

The filesystem is modelled explicitly: repositories are entries under a store
root, blob files are references to inodes (so hard links are two paths naming
one inode id), and the OS-level immutable flag lives on the inode.  JSON
payloads (`oci-layout`, `index.json`, manifest bodies) are modelled at the
decoded level, with an explicit executable codec standing in for JSON
encoding of manifest documents.
-/

/-- A byte string, as stored in blob and staging files. -/
abbrev Bytes := List Nat

/-- Association-list lookup; the model's stand-in for a directory lookup by
file name (string keys) or for the inode table (numeric keys). -/
def assocGet {α β : Type} [DecidableEq α] (k : α) : List (α × β) → Option β
  | [] => none
  | (k', v) :: rest => if k = k' then some v else assocGet k rest

/-- Association-list update/insert: overwrites the binding of `k` when
present, otherwise appends it. -/
def assocSet {α β : Type} [DecidableEq α] (k : α) (v : β) : List (α × β) → List (α × β)
  | [] => [(k, v)]
  | (k', v') :: rest => if k = k' then (k, v) :: rest else (k', v') :: assocSet k v rest

/-- Association-list deletion of the binding of `k`. -/
def assocRemove {α β : Type} [DecidableEq α] (k : α) : List (α × β) → List (α × β)
  | [] => []
  | (k', v') :: rest => if k = k' then rest else (k', v') :: assocRemove k rest

theorem assocGet_assocSet_self {α β : Type} [DecidableEq α] (k : α) (v : β)
    (l : List (α × β)) : assocGet k (assocSet k v l) = some v := by
  induction l with
  | nil => simp [assocGet, assocSet]
  | cons hd tl ih =>
    by_cases h : k = hd.1
    · simp [assocGet, assocSet, h]
    · simp [assocGet, assocSet, h, ih]

theorem assocGet_assocSet_ne {α β : Type} [DecidableEq α] (k k' : α) (v : β)
    (l : List (α × β)) (h : k ≠ k') : assocGet k (assocSet k' v l) = assocGet k l := by
  induction l with
  | nil => simp [assocGet, assocSet, h]
  | cons hd tl ih =>
    by_cases h' : k' = hd.1
    · simp only [assocSet, h', if_pos rfl]
      simp [assocGet, h, h' ▸ h]
    · by_cases h'' : k = hd.1
      · simp [assocGet, assocSet, h', h'']
      · simp [assocGet, assocSet, h', h'', ih]

/-- The last element of a list satisfying a predicate; the model's stand-in
for "the most recently appended matching descriptor" of an image index. -/
def findLast? {α : Type} (p : α → Bool) (l : List α) : Option α :=
  l.foldl (fun acc a => if p a then some a else acc) none

theorem findLast?_append_singleton {α : Type} (p : α → Bool) (l : List α) (a : α) :
    findLast? p (l ++ [a]) = if p a then some a else findLast? p l := by
  simp [findLast?, List.foldl_append]

/-- Modelled from the spec: the decoded content of an `oci-layout` marker
file (spec section 3 and section 6).  The engine only inspects whether the file
decodes as JSON and what its `imageLayoutVersion` field holds, so the content
is modelled at that level: `json v` is a JSON document whose
`imageLayoutVersion` field is `v` (with `none` for a document, such as `{}`,
lacking the field), and `notJSON` is an undecodable file. -/
inductive LayoutFile : Type where
  | json (version : Option String)
  | notJSON
deriving DecidableEq, Repr

/-- An entry of a repository's `index.json`: an OCI descriptor with an
optional `org.opencontainers.image.ref.name` tag annotation (spec section 3). -/
structure IndexDesc : Type where
  mediaType : String
  digestHex : String
  size : Nat
  refName : Option String
deriving DecidableEq, Repr

/-- Modelled from the spec: the decoded content of an `index.json` file.
An empty or corrupt file is `undecodable`; otherwise the file is the list of
manifest descriptors it carries. -/
inductive IndexFile : Type where
  | undecodable
  | decoded (descs : List IndexDesc)
deriving DecidableEq, Repr

/-- A filesystem inode: the byte content of a committed blob file together
with the OS-level immutable flag (`chattr +i`).  Two directory entries holding
the same inode id are hard links of each other. -/
structure Inode : Type where
  content : Bytes
  immutable : Bool
deriving DecidableEq, Repr

/-- Modelled from the spec: the on-disk state of one repository directory
(spec section 3): the `oci-layout` marker, `index.json`, the `blobs/sha256`
directory (a map from hex digest to inode id), and the `.uploads` staging
area (a map from session id to staged bytes).  A `none` field is a missing
file or directory. -/
structure Repo : Type where
  layout : Option LayoutFile
  index : Option IndexFile
  blobs : Option (List (String × Nat))
  uploads : List (String × Bytes)
deriving DecidableEq, Repr

/-- What occupies a repository path under the store root: either a plain
regular file (blocking `InitRepo`) or a directory holding a repository. -/
inductive RepoEntry : Type where
  | plainFile (content : Bytes)
  | dir (repo : Repo)
deriving DecidableEq, Repr

/-- Modelled from the spec: an `ImageStoreFS` (spec section 3 "Store"): a
rooted directory of repositories with the `gc` (reserved) and `dedupe`
configuration flags, plus the backing filesystem's inode table.  `nextInode`
and `nextSession` make inode ids and upload session ids fresh. -/
structure Store : Type where
  gc : Bool
  dedupe : Bool
  repos : List (String × RepoEntry)
  inodes : List (Nat × Inode)
  nextInode : Nat
  nextSession : Nat
deriving DecidableEq, Repr

/-- Modelled from the spec: the SHA-256 digester (spec section 4.1).  The
engine relies only on the digest being a deterministic, collision-free
function of the content, so the hash is modelled as an injective printable
encoding of the byte list rather than the SHA-256 compression function.  The
result plays the role of the lowercase-hex digest component. -/
def sha256Hex (b : Bytes) : String := toString b

/-- The supported image-layout version (spec section 6). -/
def layoutVersion : String := "1.0.0"

/-- The canonical decoded `oci-layout` marker content. -/
def layoutMarker : LayoutFile := .json (some layoutVersion)

/-- The `imageLayoutVersion` a layout file yields, if any. -/
def layoutVersionOf : LayoutFile → Option String
  | .json v => v
  | .notJSON => none

/-- An empty directory at a repository path (as created externally by
`os.Mkdir` in the scenarios): none of the repository files exist yet. -/
def emptyRepo : Repo := { layout := none, index := none, blobs := none, uploads := [] }

/-- The repository contents `InitRepo` creates from scratch: the layout
marker, an empty image index and an empty `blobs/sha256` directory. -/
def freshRepoContents : Repo :=
  { layout := some layoutMarker, index := some (.decoded []), blobs := some [], uploads := [] }

/-- The error kinds of the engine's taxonomy used by the modelled
operations (spec section 6). -/
inductive ErrKind : Type where
  | RepoNotFound
  | RepoIsNotDir
  | RepoBadVersion
  | BadLayoutVersion
  | ManifestNotFound
  | BadManifest
  | UnsupportedMediaType
  | BlobNotFound
  | BadBlobDigest
  | UploadNotFound
  | DedupeFailed
  | InvalidSize
  | StorageFailure
deriving DecidableEq, Repr

/-- Modelled from the spec: `InitRepo` (spec section 4.2): fails with
`RepoIsNotDir` when a plain file blocks the repository path; otherwise it
creates the repository directory if needed and writes each of `blobs/sha256`,
`oci-layout` and an empty `index.json` that does not already exist. -/
def initRepo (s : Store) (name : String) : Store × Option ErrKind :=
  match assocGet name s.repos with
  | some (.plainFile _) => (s, some .RepoIsNotDir)
  | some (.dir r) =>
    let r' : Repo :=
      { r with layout := some (r.layout.getD layoutMarker),
               index := some (r.index.getD (.decoded [])),
               blobs := some (r.blobs.getD []) }
    ({ s with repos := assocSet name (.dir r') s.repos }, none)
  | none =>
    ({ s with repos := assocSet name (.dir freshRepoContents) s.repos }, none)

/-- Modelled from the spec: `ValidateRepo` (spec section 4.2): `RepoNotFound`
when no repository directory exists at the path; `(false, nil)` when one of the
required entries (`blobs`, `oci-layout`, `index.json`) is missing; then, per
spec section 6 and scenario S4 (confirmed by `TestNegativeCases`), any
`oci-layout` content that does not yield `imageLayoutVersion` 1.0.0 fails with
`RepoBadVersion`. -/
def validateRepo (s : Store) (name : String) : Bool × Option ErrKind :=
  match assocGet name s.repos with
  | none => (false, some .RepoNotFound)
  | some (.plainFile _) => (false, some .RepoNotFound)
  | some (.dir r) =>
    match r.blobs, r.layout, r.index with
    | some _, some lay, some _ =>
      if layoutVersionOf lay = some layoutVersion then (true, none)
      else (false, some .RepoBadVersion)
    | _, _, _ => (false, none)

/-- Modelled from the spec: `GetImageTags` (spec section 4.2): the list of tag
annotations of `index.json`; a missing or undecodable index yields
`ManifestNotFound` at read time (spec section 7, crash-safety).  The operation
is a read: it is given the store and hands it back untouched. -/
def getImageTags (s : Store) (name : String) : Store × Except ErrKind (List String) :=
  match assocGet name s.repos with
  | some (.dir r) =>
    match r.index with
    | some (.decoded ds) => (s, .ok (ds.filterMap (fun dd => dd.refName)))
    | _ => (s, .error .ManifestNotFound)
  | _ => (s, .error .RepoNotFound)

/-- Lexicographic order on character lists by code point. -/
def charsLe : List Char → List Char → Bool
  | [], _ => true
  | _ :: _, [] => false
  | c :: cs, d :: ds =>
    if c.toNat < d.toNat then true
    else if d.toNat < c.toNat then false
    else charsLe cs ds

/-- Lexicographic order on strings by code point. -/
def strLe (a b : String) : Bool := charsLe a.toList b.toList

/-- Insert a string into a lexicographically sorted list. -/
def insortStr (x : String) : List String → List String
  | [] => [x]
  | y :: ys => if strLe x y then x :: y :: ys else y :: insortStr x ys

/-- Sort a list of strings lexicographically; used for the dedupe
coordinator's repository enumeration (spec section 4.3, step 1). -/
def sortStrs (l : List String) : List String := l.foldr insortStr []

/-- One step of the dedupe coordinator's probe (spec section 4.3, step 2):
walk the candidate repository names, skip the source repository, and return
the inode id of the first existing `blobs/sha256/<hex>` file found. -/
def firstCanonical (s : Store) (srcRepo hex : String) : List String → Option Nat
  | [] => none
  | n :: ns =>
    if n = srcRepo then firstCanonical s srcRepo hex ns
    else
      match assocGet n s.repos with
      | some (.dir r) =>
        match r.blobs with
        | some bs =>
          match assocGet hex bs with
          | some bid => some bid
          | none => firstCanonical s srcRepo hex ns
        | none => firstCanonical s srcRepo hex ns
      | _ => firstCanonical s srcRepo hex ns

/-- Modelled from the spec: the dedupe coordinator's search for a canonical
copy of a freshly committed blob: enumerate the store's repositories
lexicographically, other than the source, and probe each `blobs/sha256/<hex>`
path (spec section 4.3, steps 1 and 2). -/
def findCanonical (s : Store) (srcRepo hex : String) : Option Nat :=
  firstCanonical s srcRepo hex (sortStrs (s.repos.map Prod.fst))

/-- Modelled from the spec: `NewBlobUpload` (spec section 4.2): the repository
is created lazily (spec section 3, lifecycle), then a fresh, store-unique
upload session id is allocated with an empty staging file. -/
def sessionName (n : Nat) : String := "session" ++ toString n

def newBlobUpload (s : Store) (repo : String) : Store × Except ErrKind String :=
  match initRepo s repo with
  | (_, some e) => (s, .error e)
  | (s₁, none) =>
    match assocGet repo s₁.repos with
    | some (.dir r) =>
      let sid := sessionName s₁.nextSession
      let r' := { r with uploads := assocSet sid [] r.uploads }
      ({ s₁ with repos := assocSet repo (.dir r') s₁.repos,
                 nextSession := s₁.nextSession + 1 }, .ok sid)
    | _ => (s, .error .RepoNotFound)

/-- Modelled from the spec: `PutBlobChunkStreamed` (spec section 4.2): append
the body to the session's staging file and report the byte count appended; a
write to a non-existent session fails cleanly with `UploadNotFound`. -/
def putBlobChunkStreamed (s : Store) (repo sid : String) (body : Bytes) :
    Store × Except ErrKind Nat :=
  match assocGet repo s.repos with
  | some (.dir r) =>
    match assocGet sid r.uploads with
    | none => (s, .error .UploadNotFound)
    | some staged =>
      let r' := { r with uploads := assocSet sid (staged ++ body) r.uploads }
      ({ s with repos := assocSet repo (.dir r') s.repos }, .ok body.length)
  | _ => (s, .error .UploadNotFound)

/-- Commit a staged upload as a fresh inode at `blobs/sha256/<hex>` and drop
the staging file (spec section 4.2, upload finalize steps 4): the plain,
non-deduplicated path. -/
def commitFresh (s : Store) (repo : String) (r : Repo) (sid hex : String)
    (staged : Bytes) (bs : List (String × Nat)) : Store × Option ErrKind :=
  let bid := s.nextInode
  let r' := { r with blobs := some (assocSet hex bid bs),
                     uploads := assocRemove sid r.uploads }
  ({ s with inodes := assocSet bid { content := staged, immutable := false } s.inodes,
            nextInode := bid + 1,
            repos := assocSet repo (.dir r') s.repos }, none)

/-- Commit a staged upload by hard-linking the canonical inode found in
another repository at `blobs/sha256/<hex>` and drop the staging file (spec
section 4.3, step 3): the deduplicated path. -/
def commitLink (s : Store) (repo : String) (r : Repo) (sid hex : String)
    (canonId : Nat) (bs : List (String × Nat)) : Store × Option ErrKind :=
  let r' := { r with blobs := some (assocSet hex canonId bs),
                     uploads := assocRemove sid r.uploads }
  ({ s with repos := assocSet repo (.dir r') s.repos }, none)

/-- Commit when the blob file already is the canonical inode: only the
staging file is dropped. -/
def commitKeep (s : Store) (repo : String) (r : Repo) (sid : String)
    (bs : List (String × Nat)) : Store × Option ErrKind :=
  let r' := { r with blobs := some bs, uploads := assocRemove sid r.uploads }
  ({ s with repos := assocSet repo (.dir r') s.repos }, none)

/-- Modelled from the spec: `FinishBlobUpload` (spec section 4.2, upload
finalize algorithm): recompute the digest of the staged content; on mismatch
delete the staging file and fail with `BadBlobDigest`; otherwise commit the
blob at `blobs/sha256/<hex>`, consulting the dedupe coordinator when the
store's `dedupe` flag is on.  A filesystem refusal during the commit — the
OS-level immutable flag on the file occupying the blob path (the rename /
remove step hits `EPERM`) or on the canonical copy being hard-linked (the link
step hits `EPERM`) — fails the call and leaves the store, including the staged
session, unchanged, as scenario S3 and `TestNegativeCases` require; the staged
session survives so the same call can be retried. -/
def finishBlobUpload (s : Store) (repo sid expected : String) : Store × Option ErrKind :=
  match assocGet repo s.repos with
  | some (.dir r) =>
    match assocGet sid r.uploads with
    | none => (s, some .UploadNotFound)
    | some staged =>
      if sha256Hex staged = expected then
        let hex := sha256Hex staged
        let bs := r.blobs.getD []
        match (if s.dedupe then findCanonical s repo hex else none) with
        | some canonId =>
          (match assocGet canonId s.inodes with
           | none => (s, some .StorageFailure)
           | some canonIno =>
             match assocGet hex bs with
             | some dstId =>
               if dstId = canonId then commitKeep s repo r sid bs
               else
                 (match assocGet dstId s.inodes with
                  | none => (s, some .StorageFailure)
                  | some dstIno =>
                    if dstIno.immutable then (s, some .DedupeFailed)
                    else if canonIno.immutable then (s, some .DedupeFailed)
                    else commitLink s repo r sid hex canonId bs)
             | none =>
               if canonIno.immutable then (s, some .DedupeFailed)
               else commitLink s repo r sid hex canonId bs)
        | none =>
          match assocGet hex bs with
          | some dstId =>
            (match assocGet dstId s.inodes with
             | none => (s, some .StorageFailure)
             | some dstIno =>
               if dstIno.immutable then (s, some .StorageFailure)
               else commitFresh s repo r sid hex staged bs)
          | none => commitFresh s repo r sid hex staged bs
      else
        let r' := { r with uploads := assocRemove sid r.uploads }
        ({ s with repos := assocSet repo (.dir r') s.repos }, some .BadBlobDigest)
  | _ => (s, some .UploadNotFound)

/-- Modelled from the spec: the external `chattr` invocation of scenario S3:
set or clear the OS-level immutable flag on the inode behind the blob file
`<repo>/blobs/sha256/<hex>`. -/
def setImmutableFlag (s : Store) (repo hex : String) (v : Bool) : Store :=
  match assocGet repo s.repos with
  | some (.dir r) =>
    match r.blobs with
    | some bs =>
      match assocGet hex bs with
      | some bid =>
        match assocGet bid s.inodes with
        | some ino =>
          { s with inodes := assocSet bid { ino with immutable := v } s.inodes }
        | none => s
      | none => s
    | none => s
  | _ => s

/-- The blob file of `repo` at hex digest `hex`, as an inode id; `os.SameFile`
on two blob files is equality of these ids. -/
def blobInodeId (s : Store) (repo hex : String) : Option Nat :=
  match assocGet repo s.repos with
  | some (.dir r) =>
    match r.blobs with
    | some bs => assocGet hex bs
    | none => none
  | _ => none

/-- Modelled from the spec: `NewImageStoreFS` root handling: the store root is
created when missing (returning a usable store) and construction yields no
store when the root cannot be created, e.g. for lack of permission on the
parent (`TestNegativeCases`, invalid root dir).  Per spec section 4.3, a
filesystem on which the hard-link probe fails degrades dedupe to plain
storage. -/
def newImageStoreFS (rootExists parentWritable hardLinkOK gcFlag dedupeFlag : Bool) :
    Option Store :=
  if rootExists || parentWritable then
    some { gc := gcFlag, dedupe := dedupeFlag && hardLinkOK, repos := [],
           inodes := [], nextInode := 0, nextSession := 0 }
  else none

/-- A descriptor referenced by a manifest body (its `config` or one of its
`layers`): media type, digest (hex component) and declared size. -/
structure DescRef : Type where
  mediaType : String
  digestHex : String
  size : Nat
deriving DecidableEq, Repr

/-- A decoded OCI image manifest document: schema version, config descriptor
and layer descriptors (spec section 4.2, manifest ingest step 2 and 3). -/
structure ManifestDoc : Type where
  schemaVersion : Nat
  config : DescRef
  layers : List DescRef
deriving DecidableEq, Repr

/-- Length-prefixed byte encoding of a string (characters as code points). -/
def encodeStr (s : String) : Bytes := s.length :: s.toList.map Char.toNat

/-- Decode a length-prefixed string, returning it with the remaining bytes. -/
def decodeStr : Bytes → Option (String × Bytes)
  | [] => none
  | n :: rest =>
    if n ≤ rest.length then
      some (String.mk ((rest.take n).map Char.ofNat), rest.drop n)
    else none

/-- Byte encoding of a manifest descriptor. -/
def encodeDesc (d : DescRef) : Bytes :=
  encodeStr d.mediaType ++ encodeStr d.digestHex ++ [d.size]

/-- Decode one manifest descriptor, returning the remaining bytes. -/
def decodeDesc (b : Bytes) : Option (DescRef × Bytes) :=
  match decodeStr b with
  | none => none
  | some (mt, b₁) =>
    match decodeStr b₁ with
    | none => none
    | some (dg, b₂) =>
      match b₂ with
      | [] => none
      | sz :: b₃ => some ({ mediaType := mt, digestHex := dg, size := sz }, b₃)

/-- Decode `count` consecutive descriptors. -/
def decodeDescs : Nat → Bytes → Option (List DescRef × Bytes)
  | 0, b => some ([], b)
  | count + 1, b =>
    match decodeDesc b with
    | none => none
    | some (d, b₁) =>
      match decodeDescs count b₁ with
      | none => none
      | some (ds, b₂) => some (d :: ds, b₂)

/-- Modelled from the spec: the JSON encoding of a manifest document.  The
engine treats manifest bodies as opaque bytes that must decode to a document;
the concrete JSON syntax is external, so a simple executable length-prefixed
codec stands in for it: schema version, config descriptor, then the
count-prefixed layer descriptors. -/
def encodeManifest (m : ManifestDoc) : Bytes :=
  m.schemaVersion :: encodeDesc m.config ++ m.layers.length :: (m.layers.map encodeDesc).flatten

/-- Modelled from the spec: JSON decoding of a manifest body (spec section
4.2, manifest ingest step 2); `none` is an unparseable body. -/
def parseManifest (b : Bytes) : Option ManifestDoc :=
  match b with
  | [] => none
  | v :: rest =>
    match decodeDesc rest with
    | none => none
    | some (c, b₁) =>
      match b₁ with
      | [] => none
      | count :: b₂ =>
        match decodeDescs count b₂ with
        | none => none
        | some (ls, b₃) =>
          if b₃ = [] then some { schemaVersion := v, config := c, layers := ls }
          else none

/-- The OCI image-manifest media type, the supported manifest kind (spec
section 4.2, manifest ingest step 1). -/
def mtImageManifest : String := "application/vnd.oci.image.manifest.v1+json"

/-- Whether a media type is a supported OCI manifest kind. -/
def supportedManifestMediaType (mt : String) : Bool := mt = mtImageManifest

/-- A manifest reference, already split into its two syntactic classes: a tag
name, or a digest written `sha256:<hex>` and carried here by its hex
component (spec section 4.2; the prefix syntax is handled by `refString`). -/
inductive Ref : Type where
  | tag (t : String)
  | dg (hex : String)
deriving DecidableEq, Repr

/-- The string form of a reference as it appears on the HTTP surface. -/
def refString : Ref → String
  | .tag t => t
  | .dg hex => "sha256:" ++ hex

/-- The tag annotation a reference contributes to the new index descriptor
(spec section 4.2, manifest ingest step 5): digests bind no tag. -/
def refTagName : Ref → Option String
  | .tag t => some t
  | .dg _ => none

/-- The descriptors displaced by a manifest ingest (spec section 4.2, manifest
ingest step 5): a digest reference upserts by digest; a tag reference removes
any descriptor bearing the same tag annotation (last-write-wins, spec
section 3). -/
def dropForRef (ref : Ref) (hex : String) (ds : List IndexDesc) : List IndexDesc :=
  match ref with
  | .dg _ => ds.filter (fun dd => dd.digestHex ≠ hex)
  | .tag t => ds.filter (fun dd => dd.refName ≠ some t)

/-- Check one referenced descriptor against the repository's blob store (spec
section 4.2, manifest ingest step 3, and spec section 3 "Descriptor"):
the blob must exist and its actual size must match the declared size. -/
def descCheck (s : Store) (r : Repo) (d : DescRef) : Option ErrKind :=
  match r.blobs with
  | none => some .BlobNotFound
  | some bs =>
    match assocGet d.digestHex bs with
    | none => some .BlobNotFound
    | some bid =>
      match assocGet bid s.inodes with
      | none => some .BlobNotFound
      | some ino => if ino.content.length = d.size then none else some .InvalidSize

/-- First failing check among the referenced descriptors. -/
def descsCheck (s : Store) (r : Repo) : List DescRef → Option ErrKind
  | [] => none
  | d :: ds =>
    match descCheck s r d with
    | some e => some e
    | none => descsCheck s r ds

/-- Modelled from the spec: `PutImageManifest` (spec section 4.2, manifest
ingest algorithm): validate the media type; parse the body and require schema
version 2; create the repository lazily; require every referenced descriptor's
blob to exist with the declared size; write the body as a blob at
`blobs/sha256/<hex>`; update `index.json` per the reference kind (upsert for a
digest, replace-by-tag then append for a tag); return the computed digest. -/
def putImageManifest (s : Store) (repo : String) (ref : Ref) (mt : String)
    (body : Bytes) : Store × Except ErrKind String :=
  if supportedManifestMediaType mt then
    match parseManifest body with
    | none => (s, .error .BadManifest)
    | some m =>
      if m.schemaVersion = 2 then
        match initRepo s repo with
        | (_, some e) => (s, .error e)
        | (s₁, none) =>
          match assocGet repo s₁.repos with
          | some (.dir r) =>
            match descsCheck s₁ r (m.config :: m.layers) with
            | some e => (s₁, .error e)
            | none =>
              match r.index with
              | some (.decoded ds) =>
                let hex := sha256Hex body
                let bid := s₁.nextInode
                let ds' := dropForRef ref hex ds ++
                  [{ mediaType := mt, digestHex := hex, size := body.length,
                     refName := refTagName ref }]
                let r' := { r with blobs := some (assocSet hex bid (r.blobs.getD [])),
                                   index := some (.decoded ds') }
                ({ s₁ with inodes := assocSet bid { content := body, immutable := false } s₁.inodes,
                           nextInode := bid + 1,
                           repos := assocSet repo (.dir r') s₁.repos }, .ok hex)
              | _ => (s₁, .error .ManifestNotFound)
          | _ => (s₁, .error .RepoNotFound)
      else (s, .error .BadManifest)
  else (s, .error .UnsupportedMediaType)

/-- Modelled from the spec: `GetImageManifest` (spec section 4.2, manifest
lookup): resolve the reference through `index.json` (by digest, or by the
tag annotation), read the blob the descriptor names, and return its bytes,
digest and media type; a missing or undecodable index yields
`ManifestNotFound` (spec section 7, crash-safety). -/
def getImageManifest (s : Store) (repo : String) (ref : Ref) :
    Except ErrKind (Bytes × String × String) :=
  match assocGet repo s.repos with
  | some (.dir r) =>
    match r.index with
    | some (.decoded ds) =>
      let found := match ref with
        | .dg hex => findLast? (fun (dd : IndexDesc) => dd.digestHex == hex) ds
        | .tag t => findLast? (fun (dd : IndexDesc) => dd.refName == some t) ds
      match found with
      | none => .error .ManifestNotFound
      | some dd =>
        match r.blobs with
        | none => .error .BlobNotFound
        | some bs =>
          match assocGet dd.digestHex bs with
          | none => .error .BlobNotFound
          | some bid =>
            match assocGet bid s.inodes with
            | none => .error .BlobNotFound
            | some ino => .ok (ino.content, dd.digestHex, dd.mediaType)
    | _ => .error .ManifestNotFound
  | _ => .error .RepoNotFound

/-- The blob-commit sequence of the dedupe scenarios (`TestDedupeLinks` and
scenario S2): `NewBlobUpload`, a single `PutBlobChunkStreamed` carrying the
whole content, then `FinishBlobUpload` with the content's digest. -/
def commitScenario (s : Store) (repo : String) (b : Bytes) : Store :=
  let p1 := newBlobUpload s repo
  match p1.2 with
  | .ok sid =>
    let p2 := putBlobChunkStreamed p1.1 repo sid b
    (finishBlobUpload p2.1 repo sid (sha256Hex b)).1
  | .error _ => p1.1

/-- A store as `NewImageStoreFS(dir, true, true, logger)` builds it in the
tests: fresh root, `gc` and `dedupe` requested, hard links supported. -/
def freshDedupeStore : Store :=
  { gc := true, dedupe := true, repos := [], inodes := [], nextInode := 0,
    nextSession := 0 }

/-- The two shapes of an uninitialized store a caller can invoke operations
on: a nil value of the `ImageStore` interface, or a zero-value concrete
`ImageStoreFS` struct. -/
inductive UninitStore : Type where
  | nilInterface
  | zeroValueFS
deriving DecidableEq, Repr

/-- The image-store operations the test suite exercises on uninitialized
stores. -/
inductive StoreOp : Type where
  | dedupeBlobOp
  | getImageTagsOp
  | getImageManifestOp
deriving DecidableEq, Repr

/-- How a call on an uninitialized store terminates: by aborting the process
loudly, or by handing back an error value. -/
inductive CallOutcome : Type where
  | panicked
  | errorReturned
deriving DecidableEq, Repr

/-- Modelled from the spec: the termination behaviour of image-store
operations invoked on an uninitialized store (the `ImageStoreFS` method
bodies are not among the sources).  A call through a nil interface value
aborts the process (spec section 7 and section 9; Go nil-interface dispatch,
asserted by `TestDedupe` for `DedupeBlob`).  On a zero-value concrete struct,
`TestNegativeCases` records that `GetImageTags` and `GetImageManifest` hand
back error values instead; the remaining combination is not pinned down by
the sources and is left undetermined. -/
def uninitCallOutcome : UninitStore → StoreOp → Option CallOutcome
  | .nilInterface, _ => some .panicked
  | .zeroValueFS, .getImageTagsOp => some .errorReturned
  | .zeroValueFS, .getImageManifestOp => some .errorReturned
  | .zeroValueFS, .dedupeBlobOp => none

/-- The repository contents of the S4 scenario: blobs directory and decoded
(empty) index present, `oci-layout` holding a JSON document with no
`imageLayoutVersion` field (the empty JSON object of `TestNegativeCases`). -/
def s4Repo : Repo :=
  { layout := some (.json none), index := some (.decoded []), blobs := some [],
    uploads := [] }

/-- The concrete store of the S4 scenario: one repository, `invalid-test`,
in the `s4Repo` state. -/
def s4Store : Store :=
  { gc := true, dedupe := true, repos := [("invalid-test", .dir s4Repo)],
    inodes := [], nextInode := 0, nextSession := 0 }

/-- A store holding one repository whose `oci-layout` file does not decode
as JSON (the empty file of `TestNegativeCases`). -/
def notJSONLayoutStore : Store :=
  { gc := true, dedupe := true,
    repos := [("bad-layout",
      RepoEntry.dir { layout := some .notJSON, index := some (.decoded []),
                      blobs := some [], uploads := [] })],
    inodes := [], nextInode := 0, nextSession := 0 }

/-- The concrete store of the S6 scenario: a plain regular file at
`file-test` and an externally created empty directory at `test-dir`. -/
def s6Store : Store :=
  { gc := true, dedupe := true,
    repos := [("file-test", .plainFile [1, 2]), ("test-dir", .dir emptyRepo)],
    inodes := [], nextInode := 0, nextSession := 0 }

/-- The concrete store of the S5 scenario: a repository initialized and then
robbed of its `index.json` by an external delete. -/
def s5Store : Store :=
  { gc := true, dedupe := true,
    repos := [("test",
      RepoEntry.dir { layout := some layoutMarker, index := none,
                      blobs := some [], uploads := [] })],
    inodes := [], nextInode := 0, nextSession := 0 }

/-- C5: for every repository whose blobs directory exists and whose
`oci-layout` file decodes as JSON without the supported `imageLayoutVersion`
(such as the empty JSON object of scenario S4), `ValidateRepo` returns
`false` together with the error kind `RepoBadVersion`.  The repository is
structurally complete (its `index.json` exists), as in the test scenario,
since the engine's structural checks precede the version check. -/
theorem validateRepo_missingVersion_repoBadVersion
    (s : Store) (name : String) (r : Repo) (bs : List (String × Nat))
    (ix : IndexFile) (v : Option String)
    (hrepo : assocGet name s.repos = some (.dir r))
    (hblobs : r.blobs = some bs)
    (hindex : r.index = some ix)
    (hlayout : r.layout = some (.json v))
    (hv : v ≠ some layoutVersion) :
    validateRepo s name = (false, some ErrKind.RepoBadVersion) := by
  simp [validateRepo, hrepo, hblobs, hindex, hlayout, layoutVersionOf, hv]

/-- Witness for C5: the concrete S4 store. -/
theorem validateRepo_missingVersion_repoBadVersion_witness :
    validateRepo s4Store "invalid-test" = (false, some ErrKind.RepoBadVersion) :=
  validateRepo_missingVersion_repoBadVersion s4Store "invalid-test" s4Repo []
    (.decoded []) none (by decide) (by decide) (by decide) (by decide) (by decide)

/-- Counterexample for C6: at the concrete repository whose `oci-layout` is
the empty JSON object, validation fails with `RepoBadVersion`, not with
`BadLayoutVersion` as the claim states (matching the
`errors.ErrRepoBadVersion` assertion of `TestNegativeCases`). -/
theorem validateRepo_emptyObject_not_badLayoutVersion :
    validateRepo s4Store "invalid-test" ≠ (false, some ErrKind.BadLayoutVersion) ∧
    validateRepo s4Store "invalid-test" = (false, some ErrKind.RepoBadVersion) := by
  decide

/-- C6 (amended): for every structurally complete repository whose
`oci-layout` content does not yield the supported `imageLayoutVersion` —
whether it is JSON with a missing or different version, or not decodable at
all — validation fails with the error kind `RepoBadVersion`. -/
theorem validateRepo_nonCanonicalLayout_repoBadVersion
    (s : Store) (name : String) (r : Repo) (bs : List (String × Nat))
    (ix : IndexFile) (lay : LayoutFile)
    (hrepo : assocGet name s.repos = some (.dir r))
    (hblobs : r.blobs = some bs)
    (hindex : r.index = some ix)
    (hlayout : r.layout = some lay)
    (hv : layoutVersionOf lay ≠ some layoutVersion) :
    validateRepo s name = (false, some ErrKind.RepoBadVersion) := by
  simp [validateRepo, hrepo, hblobs, hindex, hlayout, hv]

/-- Witness for the amended C6: an undecodable (empty) `oci-layout` file. -/
theorem validateRepo_nonCanonicalLayout_repoBadVersion_witness :
    validateRepo notJSONLayoutStore "bad-layout"
      = (false, some ErrKind.RepoBadVersion) :=
  validateRepo_nonCanonicalLayout_repoBadVersion notJSONLayoutStore "bad-layout"
    { layout := some .notJSON, index := some (.decoded []), blobs := some [],
      uploads := [] }
    [] (.decoded []) .notJSON (by decide) (by decide) (by decide) (by decide)
    (by decide)

/-- C7: `InitRepo` fails with `RepoIsNotDir` when a plain regular file
occupies the repository path, and succeeds on a pre-existing empty directory;
on success the repository directory holds the `blobs/sha256` directory, the
`oci-layout` marker and an empty `index.json`. -/
theorem initRepo_plainFile_fails_emptyDir_succeeds
    (s : Store) (nf nd : String) (content : Bytes)
    (hf : assocGet nf s.repos = some (.plainFile content))
    (hd : assocGet nd s.repos = some (.dir emptyRepo)) :
    (initRepo s nf).2 = some ErrKind.RepoIsNotDir ∧
    (initRepo s nd).2 = none ∧
    assocGet nd (initRepo s nd).1.repos
      = some (.dir { layout := some layoutMarker, index := some (.decoded []),
                     blobs := some [], uploads := [] }) := by
  refine ⟨by simp [initRepo, hf], by simp [initRepo, hd], ?_⟩
  simp [initRepo, hd, emptyRepo, assocGet_assocSet_self]

/-- Witness for C7: the concrete S6 store. -/
theorem initRepo_plainFile_fails_emptyDir_succeeds_witness :
    (initRepo s6Store "file-test").2 = some ErrKind.RepoIsNotDir ∧
    (initRepo s6Store "test-dir").2 = none ∧
    assocGet "test-dir" (initRepo s6Store "test-dir").1.repos
      = some (.dir { layout := some layoutMarker, index := some (.decoded []),
                     blobs := some [], uploads := [] }) :=
  initRepo_plainFile_fails_emptyDir_succeeds s6Store "file-test" "test-dir"
    [1, 2] (by decide) (by decide)

/-- C8: on an initialized repository whose `index.json` is missing or cannot
be decoded, `GetImageTags` returns an error and hands the store back
unchanged — the layout marker, blobs directory and blob contents are exactly
those of the state it was called on. -/
theorem getImageTags_badIndex_errors_and_preserves
    (s : Store) (name : String) (r : Repo)
    (hrepo : assocGet name s.repos = some (.dir r))
    (hbad : r.index = none ∨ r.index = some IndexFile.undecodable) :
    (∃ e, (getImageTags s name).2 = .error e) ∧ (getImageTags s name).1 = s := by
  rcases hbad with h | h
  · exact ⟨⟨.ManifestNotFound, by simp [getImageTags, hrepo, h]⟩,
      by simp [getImageTags, hrepo, h]⟩
  · exact ⟨⟨.ManifestNotFound, by simp [getImageTags, hrepo, h]⟩,
      by simp [getImageTags, hrepo, h]⟩

/-- Witness for C8: the concrete S5 store (missing `index.json`). -/
theorem getImageTags_badIndex_errors_and_preserves_witness :
    (∃ e, (getImageTags s5Store "test").2 = .error e) ∧
    (getImageTags s5Store "test").1 = s5Store :=
  getImageTags_badIndex_errors_and_preserves s5Store "test"
    { layout := some layoutMarker, index := none, blobs := some [],
      uploads := [] }
    (by decide) (Or.inl rfl)

/-- Counterexample for C9: `GetImageTags` invoked on a zero-value concrete
store hands back an error value — it does not abort the process — so not
every operation on an uninitialized store panics (`TestNegativeCases`,
invalid get image tags). -/
theorem uninit_zeroValue_getImageTags_returns_error :
    uninitCallOutcome UninitStore.zeroValueFS StoreOp.getImageTagsOp
      = some CallOutcome.errorReturned ∧
    CallOutcome.errorReturned ≠ CallOutcome.panicked := by
  decide

/-- C9 (amended): invoking any operation through a nil `ImageStore` interface
value aborts the process loudly, while `GetImageTags` and `GetImageManifest`
on a zero-value concrete store return error values instead of panicking. -/
theorem uninit_nilInterface_panics_zeroValueFS_errors :
    (∀ op, uninitCallOutcome UninitStore.nilInterface op = some CallOutcome.panicked) ∧
    uninitCallOutcome UninitStore.zeroValueFS StoreOp.getImageTagsOp
      = some CallOutcome.errorReturned ∧
    uninitCallOutcome UninitStore.zeroValueFS StoreOp.getImageManifestOp
      = some CallOutcome.errorReturned :=
  ⟨fun op => by cases op <;> rfl, rfl, rfl⟩

/-- C10: `NewImageStoreFS` creates the missing store root when the parent
path permits it and yields a usable store — one on which `InitRepo`
succeeds — and yields no store when the root cannot be created. -/
theorem newImageStoreFS_creates_root_or_fails (hl gcF dd : Bool) :
    (∃ st, newImageStoreFS false true hl gcF dd = some st ∧
      (initRepo st "repo").2 = none) ∧
    newImageStoreFS false false hl gcF dd = none :=
  ⟨⟨_, rfl, rfl⟩, rfl⟩

/-- Stage content for an upload without finishing it: `NewBlobUpload`
followed by one `PutBlobChunkStreamed` carrying the whole content; the
resulting store and the session id. -/
def stageScenario (s : Store) (repo : String) (b : Bytes) : Store × String :=
  let p1 := newBlobUpload s repo
  match p1.2 with
  | .ok sid => ((putBlobChunkStreamed p1.1 repo sid b).1, sid)
  | .error _ => (p1.1, "")

/-- The store after committing content `b` in repository `dedupe1` of a fresh
dedupe-enabled store: one blob file backed by inode 0, whose immutable flag
is `im`. -/
def dedupe1Committed (b : Bytes) (im : Bool) : Store :=
  { gc := true, dedupe := true,
    repos := [("dedupe1",
      RepoEntry.dir { layout := some layoutMarker, index := some (.decoded []),
                      blobs := some [(sha256Hex b, 0)], uploads := [] })],
    inodes := [(0, { content := b, immutable := im })],
    nextInode := 1, nextSession := 1 }

/-- The store of the S3 scenario right before the finishing call: `dedupe1`
holds the canonical blob (inode 0, immutable flag `im`) and `dedupe2` has the
identical content staged under session `session1`. -/
def dedupe2Staged (b : Bytes) (im : Bool) : Store :=
  { gc := true, dedupe := true,
    repos := [("dedupe1",
      RepoEntry.dir { layout := some layoutMarker, index := some (.decoded []),
                      blobs := some [(sha256Hex b, 0)], uploads := [] }),
      ("dedupe2",
      RepoEntry.dir { layout := some layoutMarker, index := some (.decoded []),
                      blobs := some [], uploads := [(sessionName 1, b)] })],
    inodes := [(0, { content := b, immutable := im })],
    nextInode := 1, nextSession := 2 }

/-- The S3 scenario, step 1: commit `b` in `dedupe1`, then make the canonical
blob file immutable at the OS level. -/
def s3Immutable (b : Bytes) : Store :=
  setImmutableFlag (commitScenario freshDedupeStore "dedupe1" b) "dedupe1"
    (sha256Hex b) true

/-- The S3 scenario, step 2: stage the identical content in `dedupe2`. -/
def s3Upload (b : Bytes) : Store × String := stageScenario (s3Immutable b) "dedupe2" b

/-- The S3 scenario, step 3: the finishing call made while the canonical copy
is immutable. -/
def s3FirstFinish (b : Bytes) : Store × Option ErrKind :=
  finishBlobUpload (s3Upload b).1 "dedupe2" (s3Upload b).2 (sha256Hex b)

/-- The S3 scenario, step 4: clear the immutable flag on the canonical copy. -/
def s3Cleared (b : Bytes) : Store :=
  setImmutableFlag (s3FirstFinish b).1 "dedupe1" (sha256Hex b) false

/-- The S3 scenario, step 5: retry the same finishing call (same repository,
session and digest). -/
def s3Retry (b : Bytes) : Store × Option ErrKind :=
  finishBlobUpload (s3Cleared b) "dedupe2" (s3Upload b).2 (sha256Hex b)

theorem commitScenario_fresh_dedupe1 (b : Bytes) :
    commitScenario freshDedupeStore "dedupe1" b = dedupe1Committed b false := by
  simp [commitScenario, newBlobUpload, putBlobChunkStreamed, finishBlobUpload,
    initRepo, freshDedupeStore, freshRepoContents, assocGet, assocSet,
    assocRemove, findCanonical, firstCanonical, sortStrs, insortStr,
    commitFresh, commitLink, commitKeep, dedupe1Committed, layoutMarker]

theorem s3Immutable_eq (b : Bytes) : s3Immutable b = dedupe1Committed b true := by
  rw [s3Immutable, commitScenario_fresh_dedupe1]
  simp [setImmutableFlag, dedupe1Committed, assocGet, assocSet]

theorem s3Upload_eq (b : Bytes) : s3Upload b = (dedupe2Staged b true, sessionName 1) := by
  rw [s3Upload, stageScenario, s3Immutable_eq]
  simp [newBlobUpload, putBlobChunkStreamed, initRepo, dedupe1Committed,
    dedupe2Staged, assocGet, assocSet, freshRepoContents, layoutMarker]

theorem finish_staged_immutable (b : Bytes) :
    finishBlobUpload (dedupe2Staged b true) "dedupe2" (sessionName 1) (sha256Hex b)
      = (dedupe2Staged b true, some ErrKind.DedupeFailed) := by
  simp [finishBlobUpload, dedupe2Staged, assocGet, assocSet, assocRemove,
    findCanonical, firstCanonical, sortStrs, insortStr, commitFresh,
    commitLink, commitKeep]

theorem s3Cleared_eq (b : Bytes) : s3Cleared b = dedupe2Staged b false := by
  rw [s3Cleared, s3FirstFinish, s3Upload_eq]
  rw [show (dedupe2Staged b true, sessionName 1).1 = dedupe2Staged b true from rfl,
    show (dedupe2Staged b true, sessionName 1).2 = sessionName 1 from rfl,
    finish_staged_immutable]
  simp [setImmutableFlag, dedupe2Staged, assocGet, assocSet]

theorem finish_staged_cleared (b : Bytes) :
    (finishBlobUpload (dedupe2Staged b false) "dedupe2" (sessionName 1) (sha256Hex b)).2
      = none := by
  simp [finishBlobUpload, dedupe2Staged, assocGet, assocSet, assocRemove,
    findCanonical, firstCanonical, sortStrs, insortStr, commitFresh,
    commitLink, commitKeep]

/-- C3: after the canonical copy of the blob in repository `dedupe1` is made
immutable at the OS level, `FinishBlobUpload` in repository `dedupe2` with
the identical staged content fails with the dedupe error kind
`DedupeFailed`; after the immutability flag is cleared, retrying the same
`FinishBlobUpload` with the same session and digest succeeds. -/
theorem immutable_canonical_fails_then_retry_succeeds (b : Bytes) :
    (s3FirstFinish b).2 = some ErrKind.DedupeFailed ∧ (s3Retry b).2 = none := by
  constructor
  · rw [s3FirstFinish, s3Upload_eq,
      show (dedupe2Staged b true, sessionName 1).1 = dedupe2Staged b true from rfl,
      show (dedupe2Staged b true, sessionName 1).2 = sessionName 1 from rfl,
      finish_staged_immutable]
  · rw [s3Retry, s3Cleared_eq, s3Upload_eq,
      show (dedupe2Staged b true, sessionName 1).2 = sessionName 1 from rfl,
      finish_staged_cleared]

/-- Counterexample for C4: a concrete `FinishBlobUpload` call whose staged
content hashes to the declared digest, yet which returns an error because the
dedupe step fails on an immutable canonical copy — so a dedupe failure does
cause `FinishBlobUpload` itself to fail (as `TestNegativeCases` also
asserts). -/
theorem finish_upload_fails_on_dedupe_failure :
    (s3FirstFinish [7]).2 ≠ none ∧ (s3FirstFinish [7]).2 = some ErrKind.DedupeFailed := by
  decide

/-- C4 (amended): when the dedupe step of `FinishBlobUpload` fails (here: the
canonical copy is immutable), `FinishBlobUpload` returns the dedupe error and
leaves the store — the committed blobs and the staged session — exactly as it
found it, so the same call can be retried. -/
theorem finish_upload_dedupe_failure_errors_preserving (b : Bytes) :
    (s3FirstFinish b).2 = some ErrKind.DedupeFailed ∧
    (s3FirstFinish b).1 = (s3Upload b).1 := by
  rw [s3FirstFinish, s3Upload_eq,
    show (dedupe2Staged b true, sessionName 1).1 = dedupe2Staged b true from rfl,
    show (dedupe2Staged b true, sessionName 1).2 = sessionName 1 from rfl,
    finish_staged_immutable]
  exact ⟨rfl, rfl⟩

/-- C2: with dedupe enabled on a filesystem supporting hard links, committing
any content `b` as a blob in repository `dedupe1` (NewBlobUpload,
PutBlobChunkStreamed, FinishBlobUpload) and then committing the identical
content in repository `dedupe2` of the same store leaves the two blob files
`dedupe1/blobs/sha256/<h>` and `dedupe2/blobs/sha256/<h>` referring to the
same inode, which is what `os.SameFile` observes. -/
theorem dedupe_identical_content_same_inode (b : Bytes) :
    ∃ i : Nat,
      blobInodeId (commitScenario (commitScenario freshDedupeStore "dedupe1" b)
        "dedupe2" b) "dedupe1" (sha256Hex b) = some i ∧
      blobInodeId (commitScenario (commitScenario freshDedupeStore "dedupe1" b)
        "dedupe2" b) "dedupe2" (sha256Hex b) = some i := by
  refine ⟨0, ?_, ?_⟩ <;>
    simp [commitScenario, newBlobUpload, putBlobChunkStreamed, finishBlobUpload,
      initRepo, freshDedupeStore, freshRepoContents, assocGet, assocSet,
      assocRemove, findCanonical, firstCanonical, sortStrs, insortStr, strLe,
      charsLe, commitFresh, commitLink, commitKeep, blobInodeId]

/-- C1: for every starting store, repository, reference and manifest body, if
`PutImageManifest(repo, ref, mediaType, body)` succeeds returning digest `d`,
then `GetImageManifest(repo, d)` on the resulting store succeeds and returns
exactly the bytes `body` together with its media type (and the digest `d`). -/
theorem putImageManifest_roundtrip
    (s : Store) (repo : String) (ref : Ref) (mt : String) (body : Bytes)
    (s' : Store) (d : String)
    (h : putImageManifest s repo ref mt body = (s', Except.ok d)) :
    getImageManifest s' repo (Ref.dg d) = Except.ok (body, d, mt) := by
  unfold putImageManifest at h
  repeat any_goals split at h
  all_goals injection h with h1 h2
  all_goals first
    | exact Except.noConfusion h2
    | (injection h2 with h2; subst h1; subst h2;
       simp [getImageManifest, assocGet_assocSet_self, findLast?_append_singleton])

/-- The layer/config blob of the S1 scenario (the `test-data3` role). -/
def c1Blob : Bytes := [9, 9]

/-- The decoded manifest of the S1 scenario: schema version 2, the blob as
config and as the single layer, sizes matching. -/
def c1Doc : ManifestDoc :=
  { schemaVersion := 2,
    config := { mediaType := "application/octet-stream",
                digestHex := sha256Hex c1Blob, size := 2 },
    layers := [{ mediaType := "application/vnd.oci.image.layer.v1.tar",
                 digestHex := sha256Hex c1Blob, size := 2 }] }

/-- The manifest body of the S1 scenario, as bytes. -/
def c1Body : Bytes := encodeManifest c1Doc

/-- A store holding repository `r` with the referenced blob already
committed, ready for the manifest ingest of the S1 scenario. -/
def c1Store : Store :=
  { gc := true, dedupe := true,
    repos := [("r",
      RepoEntry.dir { layout := some layoutMarker, index := some (.decoded []),
                      blobs := some [(sha256Hex c1Blob, 0)], uploads := [] })],
    inodes := [(0, { content := c1Blob, immutable := false })],
    nextInode := 1, nextSession := 0 }

/-- Witness for C1: the S1 scenario run concretely — the manifest is ingested
under tag `1.0` and read back by its digest. -/
theorem putImageManifest_roundtrip_witness :
    getImageManifest (putImageManifest c1Store "r" (.tag "1.0") mtImageManifest c1Body).1
      "r" (Ref.dg (sha256Hex c1Body))
      = Except.ok (c1Body, sha256Hex c1Body, mtImageManifest) :=
  putImageManifest_roundtrip c1Store "r" (.tag "1.0") mtImageManifest c1Body
    (putImageManifest c1Store "r" (.tag "1.0") mtImageManifest c1Body).1
    (sha256Hex c1Body) rfl
